import Mathlib

/-!
Verification of the VLMM Cloudflare worker (vision proxy) against its
natural-language specification.

The definitions below are a shallow embedding of the TypeScript source:

* `src/src/index.ts` — the current worker: `parseAnalyzePayload`,
  `buildVisionPayload`, `getQueryFlag`, the `streamFlag` resolution in
  `fetch`, the non-stream responder, `parseNumber` and the timing-constant
  clamping, and the SSE stream synthesizer `progressWrappedSSE`.
* the legacy worker (unnamed source file of the same repository) —
  `fileToDataUrl` and `makeMessages`.

JavaScript-specific behaviour (string truthiness, `Math.round`,
`||` / `??` coalescing) is modelled explicitly where it matters.
-/

namespace VLMM

/-- JS truthiness of an optional string field: `undefined` and `""` are
falsy, every other string is truthy. -/
def strTruthy : Option String → Bool
  | none => false
  | some s => s != ""

/-- JS `toLowerCase()` for the ASCII strings compared in the source
(flag values and media types): character-wise lowering. -/
def jsToLower (s : String) : String := ⟨s.data.map Char.toLower⟩

/-- JS `Math.round` for the (non-negative) values appearing here:
round half toward positive infinity. -/
def jsRound (q : ℚ) : ℤ := ⌊q + 1/2⌋

/-- Percent value the worker attaches to a progress frame for an internal
fraction `progress ∈ [0,1]`: `Math.round(progress * 1000) / 10`. -/
def pctOf (progress : ℚ) : ℚ := (jsRound (progress * 1000) : ℚ) / 10

/-- Embeds `parseNumber` from `index.ts`: `Number(v)` when the env var is set and
numeric, otherwise the fallback.  An unset or non-numeric variable is
modelled as `none` (in the source `Number(...)` yields `NaN` then, and
`Number.isFinite` routes to the fallback). -/
def parseNumber (v : Option ℚ) (fallback : ℚ) : ℚ := v.getD fallback

-- ---------------------------------------------------------------------
-- Providers and model resolution
-- ---------------------------------------------------------------------

/-- The two upstream providers.  `bigmodel` is Provider A
(default/thinking-aware), `openrouter` is Provider B (attributed). -/
inductive Provider where
  | bigmodel
  | openrouter
deriving DecidableEq, Repr

/-- Embeds `pickProvider` from `index.ts`: a falsy field defaults to bigmodel and
any string other than "openrouter" also maps to bigmodel. -/
def pickProvider : Option String → Provider
  | none => Provider.bigmodel
  | some s => if s == "openrouter" then Provider.openrouter else Provider.bigmodel

/-- Hard-coded per-provider fallback models from `defaultModelFor`. -/
def providerFallbackModel : Provider → String
  | Provider.openrouter => "qwen/qwen2.5-vl-72b-instruct"
  | Provider.bigmodel => "glm-4.5v"

/-- Embeds `defaultModelFor` from `index.ts`: a set, non-blank `DEFAULT_MODEL`
env var wins (trimmed), otherwise the per-provider constant. -/
def defaultModelFor (defaultModel : Option String) (p : Provider) : String :=
  match defaultModel with
  | some m => if m != "" && m.trim != "" then m.trim else providerFallbackModel p
  | none => providerFallbackModel p

-- ---------------------------------------------------------------------
-- AnalyzeInput and the vision payload builder
-- ---------------------------------------------------------------------

/-- The `thinking` field of `AnalyzeInput` as JS sees it: either a string
or an object whose `type` property may or may not be a string. -/
inductive ThinkingField where
  | str (s : String)
  | obj (type? : Option String)
deriving DecidableEq, Repr

/-- The `AnalyzeInput` record of `index.ts` (all fields optional). -/
structure AnalyzeInput where
  provider : Option String := none
  model : Option String := none
  prompt : Option String := none
  image_url : Option String := none
  image_base64 : Option String := none
  detail : Option String := none
  stream : Option Bool := none
  thinking : Option ThinkingField := none
  images : Option (List String) := none
deriving DecidableEq, Repr

/-- The `images` accumulator of `buildVisionPayload`, in the source's push
order: truthy `image_url` first, then truthy `image_base64` wrapped into a
`data:image/png;base64,` URI, then all entries of the `images` array. -/
def imagesOf (input : AnalyzeInput) : List String :=
  (if strTruthy input.image_url then [input.image_url.getD ""] else []) ++
  (if strTruthy input.image_base64 then
      ["data:image/png;base64," ++ input.image_base64.getD ""] else []) ++
  input.images.getD []

/-- Modelled from the spec: the order §4.1 claims for the canonical
`images` sequence — entries of the explicit image-list field first, then
the singular image-URL field, then the singular inline-base64 field.
Present only to be compared with the source-derived `imagesOf`. -/
def specClaimedImagesOrder (input : AnalyzeInput) : List String :=
  input.images.getD [] ++
  (if strTruthy input.image_url then [input.image_url.getD ""] else []) ++
  (if strTruthy input.image_base64 then
      ["data:image/png;base64," ++ input.image_base64.getD ""] else [])

/-- One entry of the OpenAI-style `content` array: a text part or an
image part (`image_url: { url, detail? }`); `detail? = none` means the
JSON object carries no `detail` key. -/
inductive ContentPart where
  | text (s : String)
  | imageUrl (url : String) (detail? : Option String)
deriving DecidableEq, Repr

/-- The upstream payload built by `buildVisionPayload`: the resolved
model, the single user turn's content array, and the BigModel `thinking`
field (`some t` ⇔ the JSON carries `thinking: { type: t }`; `none` ⇔ the
`thinking` key is absent). -/
structure Payload where
  model : String
  content : List ContentPart
  thinking : Option String
deriving DecidableEq, Repr

/-- Embeds `buildVisionPayload` from `index.ts`.  Note: the image parts are
always pushed as `{ type: "image_url", image_url: { url } }` — the
`detail` input field is never consulted. -/
def buildVisionPayload (input : AnalyzeInput) (provider : Provider)
    (defaultModel : Option String) : Payload :=
  let model := match input.model with
    | some m => if m.trim != "" then m.trim else defaultModelFor defaultModel provider
    | none => defaultModelFor defaultModel provider
  let content :=
    (if strTruthy input.prompt then [ContentPart.text (input.prompt.getD "")] else [])
    ++ (imagesOf input).map (fun url => ContentPart.imageUrl url none)
  let thinking :=
    if provider = Provider.bigmodel then
      match input.thinking with
      | some (ThinkingField.str s) =>
          if s = "enabled" ∨ s = "disabled" then some s else none
      | some (ThinkingField.obj (some ty)) => some ty
      | some (ThinkingField.obj none) => none
      | none => none
    else none
  { model := model, content := content, thinking := thinking }

/-- Embeds `makeMessages` from the legacy worker source: a text part, then one
image part which carries the `detail` value exactly when that value is
truthy. -/
def makeMessages (prompt imageUrlData : String) (detail : Option String) :
    List ContentPart :=
  let content := [ContentPart.text prompt]
  if strTruthy detail then content ++ [ContentPart.imageUrl imageUrlData detail]
  else content ++ [ContentPart.imageUrl imageUrlData none]

-- ---------------------------------------------------------------------
-- Stream-flag resolution
-- ---------------------------------------------------------------------

/-- Embeds `getQueryFlag` from `index.ts`: `""`, `"1"` and case-insensitive
`"true"` parse to `true`; `"0"` and case-insensitive `"false"` parse to
`false`; anything else (or an absent parameter) is `undefined`. -/
def getQueryFlag : Option String → Option Bool
  | none => none
  | some v =>
    if v = "" ∨ v = "1" ∨ jsToLower v = "true" then some true
    else if v = "0" ∨ jsToLower v = "false" then some false
    else none

/-- The `streamFlag` expression in `fetch`:
`url.pathname.endsWith("/stream") || !!input.stream ||
getQueryFlag(url, "stream") === true`. -/
def wantsStream (pathEndsWithStream : Bool) (bodyStream : Option Bool)
    (queryStream : Option String) : Bool :=
  pathEndsWithStream || (bodyStream == some true) || (getQueryFlag queryStream == some true)

-- ---------------------------------------------------------------------
-- Multipart parsing (current worker) and the legacy file conversion
-- ---------------------------------------------------------------------

/-- One multipart/form-data entry value: either a string field or an
uploaded file (declared content type, byte size, and the base64 text of
its bytes — the base64 encoding loop of the legacy source is abstracted
by supplying the encoded text directly). -/
inductive FormValue where
  | str (s : String)
  | file (ctype : String) (size : Nat) (contentB64 : String)
deriving DecidableEq, Repr

/-- The raw string fields collected by `parseAnalyzePayload`'s multipart
loop, which copies only entries with `typeof v === "string"` — file
entries are skipped entirely. -/
structure RawForm where
  provider : Option String := none
  model : Option String := none
  prompt : Option String := none
  image_url : Option String := none
  image_base64 : Option String := none
  detail : Option String := none
  stream : Option String := none
  thinking : Option String := none
  images : Option String := none
deriving DecidableEq, Repr

/-- The `for (const [k, v] of fd.entries())` loop: later entries
overwrite earlier ones; file values are ignored; unknown keys are stored
on the output object but never read afterwards, so they are dropped here. -/
def collectStrings (entries : List (String × FormValue)) : RawForm :=
  entries.foldl (fun acc e =>
    match e.2 with
    | FormValue.file _ _ _ => acc
    | FormValue.str s =>
      if e.1 = "provider" then { acc with provider := some s }
      else if e.1 = "model" then { acc with model := some s }
      else if e.1 = "prompt" then { acc with prompt := some s }
      else if e.1 = "image_url" then { acc with image_url := some s }
      else if e.1 = "image_base64" then { acc with image_base64 := some s }
      else if e.1 = "detail" then { acc with detail := some s }
      else if e.1 = "stream" then { acc with stream := some s }
      else if e.1 = "thinking" then { acc with thinking := some s }
      else if e.1 = "images" then { acc with images := some s }
      else acc) {}

/-- The multipart branch of `parseAnalyzePayload` in `index.ts`.
`parseImagesJson` abstracts `JSON.parse` of the `images` string: it
returns `some l` exactly when the text parses to an array of strings;
any other outcome leaves a value that `buildVisionPayload`'s
`Array.isArray` check ignores, modelled as `none`.  The function is
total: no input — in particular no uploaded file, of any declared
content type — makes it fail. -/
def parseMultipart (parseImagesJson : String → Option (List String))
    (entries : List (String × FormValue)) : AnalyzeInput :=
  let out := collectStrings entries
  { provider := out.provider
    model := out.model
    prompt := out.prompt
    image_url := out.image_url
    image_base64 := out.image_base64
    detail := out.detail
    stream := out.stream.map (fun s => jsToLower s != "false")
    thinking := out.thinking.map ThinkingField.str
    images := match out.images with
      | some s => parseImagesJson s
      | none => none }

/-- Embeds the legacy worker regex `ALLOWED_MIME`, an anchored
case-insensitive match of image/jpeg, image/png, image/webp, image/gif. -/
def allowedMime (t : String) : Bool :=
  let l := jsToLower t
  l == "image/jpeg" || l == "image/png" || l == "image/webp" || l == "image/gif"

/-- Embeds `MAX_FILE_MB` from the legacy worker. -/
def MAX_FILE_MB : Nat := 1

/-- Embeds `fileToDataUrl` from the legacy worker: reject non-whitelisted
declared types, reject oversized files, otherwise build a data URI from
the declared content type (falling back to `image/jpeg` when the declared
type is falsy) and the base64 of the bytes. -/
def fileToDataUrl (ctype : String) (size : Nat) (contentB64 : String) :
    Except String String :=
  if !allowedMime ctype then
    Except.error "Unsupported file type (jpeg/png/webp/gif only)."
  else if size > MAX_FILE_MB * 1024 * 1024 then
    Except.error ("File too large (> " ++ toString MAX_FILE_MB ++ "MB).")
  else
    Except.ok ("data:" ++ (if ctype != "" then ctype else "image/jpeg")
      ++ ";base64," ++ contentB64)

-- ---------------------------------------------------------------------
-- Non-stream responder
-- ---------------------------------------------------------------------

/-- The outbound JSON body of the non-stream branch: either the parsed
upstream JSON or the structured `{ error: "bad upstream json" }` body. -/
inductive OutBody (α : Type) where
  | upstreamJson (v : α)
  | badUpstreamJson
deriving DecidableEq, Repr

/-- The non-stream branch of `fetch`:
`upstream.json().catch(() => null)` followed by
`new Response(JSON.stringify(json ?? {error: "bad upstream json"}),
{status: upstream.status})`.  `parsed = none` covers a body that fails to
parse as JSON (the `catch`) — and a literal JSON `null` body, which the
`??` operator treats identically.  Exactly one upstream response is
consumed; there is no retry and no status substitution. -/
def respondNonStream {α : Type} (upstreamStatus : Nat) (parsed : Option α) :
    Nat × OutBody α :=
  (upstreamStatus,
   match parsed with
   | some j => OutBody.upstreamJson j
   | none => OutBody.badUpstreamJson)

-- ---------------------------------------------------------------------
-- Stream synthesizer (`progressWrappedSSE`)
-- ---------------------------------------------------------------------

/-- The streaming-related env vars of `progressWrappedSSE`, each modelled
as the already-parsed number (`none` = unset or non-numeric, which in the
source yields `NaN` and falls back). -/
structure StreamEnv where
  PROGRESS_TTFB_P50_MS : Option ℚ := none
  PROGRESS_TOTAL_P50_MS : Option ℚ := none
  PROGRESS_TAIL_MAX : Option ℚ := none
  STREAM_HEARTBEAT_MS : Option ℚ := none
deriving DecidableEq, Repr

/-- Clamped tail ceiling:
`TAIL_MAX = Math.max(0.9, Math.min(0.999, parseNumber(env.PROGRESS_TAIL_MAX, 0.99)))`. -/
def tailMaxOf (v : Option ℚ) : ℚ := max (9/10) (min (999/1000) (parseNumber v (99/100)))

/-- Clamped heartbeat period:
`HEARTBEAT_MS = Math.max(3000, parseNumber(env.STREAM_HEARTBEAT_MS, 7000))`. -/
def heartbeatMsOf (v : Option ℚ) : ℚ := max 3000 (parseNumber v 7000)

/-- The timing constants one stream session actually uses. -/
structure SessCfg where
  TTFB : ℚ
  TOTAL : ℚ
  TAIL_MAX : ℚ
  HEARTBEAT_MS : ℚ
deriving DecidableEq, Repr

/-- The constants computed at the top of `progressWrappedSSE`. -/
def sessCfgOf (e : StreamEnv) : SessCfg :=
  { TTFB := parseNumber e.PROGRESS_TTFB_P50_MS 600
    TOTAL := parseNumber e.PROGRESS_TOTAL_P50_MS 3500
    TAIL_MAX := tailMaxOf e.PROGRESS_TAIL_MAX
    HEARTBEAT_MS := heartbeatMsOf e.STREAM_HEARTBEAT_MS }

/-- The session config for an empty environment (all defaults). -/
def defaultSessCfg : SessCfg := sessCfgOf {}

/-- One frame enqueued on the outbound SSE stream.  Synthetic `progress`
frames are reduced to their percent and phase (the source's extra
`ttfbMs`/`status`/timestamp fields are not referenced by any claim);
`upstreamBytes` is one relayed chunk of raw upstream bytes. -/
inductive Frame where
  | progress (percent : ℚ) (phase : String)
  | heartbeat
  | upstreamBytes (chunk : List Nat)
  | error (code : String)
  | complete
deriving DecidableEq, Repr

/-- The mutable session state of `progressWrappedSSE`: the tracked
fraction `progress` and the absolute time of the last soft-progress
emission (`lastEmit`, initialized to `0`). -/
structure MidState where
  progress : ℚ
  lastEmit : ℚ
deriving DecidableEq, Repr

/-- One firing of the soft-progress `setInterval` callback at absolute
time `now` (the session began at absolute time `started`):

    const elapsed = nowMs() - started;
    const est = Math.max(TOTAL, 1200);
    const target = Math.min(TAIL_MAX, elapsed / est);
    if (target > progress + 0.02 && target <= TAIL_MAX) {
      progress = target;
      if (nowMs() - lastEmit > 200) { lastEmit = now; emit progress frame }
    }
-/
def softStep (cfg : SessCfg) (started : ℚ) (st : MidState) (now : ℚ) :
    MidState × List Frame :=
  let elapsed := now - started
  let est := max cfg.TOTAL 1200
  let target := min cfg.TAIL_MAX (elapsed / est)
  if target > st.progress + 2/100 ∧ target ≤ cfg.TAIL_MAX then
    if now - st.lastEmit > 200 then
      ({ progress := target, lastEmit := now },
       [Frame.progress (pctOf target) "upstream_wait"])
    else
      ({ st with progress := target }, [])
  else (st, [])

/-- One scheduler event during the relay phase (after the
`headers_received` frame, while the upstream body is being read): a
heartbeat-timer firing, a soft-progress-timer firing at absolute time
`now`, or one upstream chunk read and relayed. -/
inductive MidEvent where
  | heartbeatTick
  | softTick (now : ℚ)
  | chunk (bytes : List Nat)
deriving DecidableEq, Repr

/-- Effect of one relay-phase event on the session state and the
outbound stream. -/
def midStep (cfg : SessCfg) (started : ℚ) (st : MidState) :
    MidEvent → MidState × List Frame
  | MidEvent.heartbeatTick => (st, [Frame.heartbeat])
  | MidEvent.softTick now => softStep cfg started st now
  | MidEvent.chunk bytes => (st, [Frame.upstreamBytes bytes])

/-- Folding a whole relay-phase schedule over the session state,
collecting the enqueued frames in order. -/
def midRun (cfg : SessCfg) (started : ℚ) :
    List MidEvent → MidState → MidState × List Frame
  | [], st => (st, [])
  | e :: es, st =>
    let r1 := midStep cfg started st e
    let r2 := midRun cfg started es r1.1
    (r2.1, r1.2 ++ r2.2)

/-- How the upstream body behaves for one streaming session:
`noBody` — `up.body` is null; `endsCleanly` — the reader eventually
reports `done`; `readFault` — a read rejects with an I/O error. -/
inductive BodyOutcome where
  | noBody
  | endsCleanly
  | readFault (msg : String)
deriving DecidableEq, Repr

/-- The upstream response handed to the synthesizer once its headers
resolve. -/
structure UpstreamResp where
  status : Nat
  outcome : BodyOutcome
deriving DecidableEq, Repr

/-- The three frames emitted before the body check: the two fixed early
progress frames, then the `headers_received` frame (the tracked fraction
jumps to `max(progress, 0.35) = 0.35` there, so its percent is
`pctOf 0.35`). -/
def preFrames : List Frame :=
  [Frame.progress 5 "queued",
   Frame.progress 10 "selecting_provider",
   Frame.progress (pctOf (35/100)) "headers_received"]

/-- The complete outbound frame sequence of one streaming session, given
the timing config, the session start time, the upstream response and the
relay-phase schedule `mid`.

Mirrors `progressWrappedSSE`'s `start` callback: the two fixed frames and
the `headers_received` frame are enqueued first (no timer can fire before
them — both `setInterval`s are installed after the headers frame, and in
the `noBody` case they are cleared synchronously before any callback can
run, so `mid` is irrelevant there); then the relay loop; then, in the
`readFault` case, the `catch` block's error frame; then — in both the
clean and the fault case — the `finalize` progress frame and the
`complete` frame.  In the `noBody` case the error frame is the last frame
and the stream is closed. -/
def sessionFrames (cfg : SessCfg) (started : ℚ) (resp : UpstreamResp)
    (mid : List MidEvent) : List Frame :=
  match resp.outcome with
  | BodyOutcome.noBody => preFrames ++ [Frame.error "NO_UPSTREAM_BODY"]
  | BodyOutcome.endsCleanly =>
      preFrames ++ (midRun cfg started mid { progress := 35/100, lastEmit := 0 }).2
        ++ [Frame.progress 99 "finalize", Frame.complete]
  | BodyOutcome.readFault _ =>
      preFrames ++ (midRun cfg started mid { progress := 35/100, lastEmit := 0 }).2
        ++ [Frame.error "UPSTREAM_READ", Frame.progress 99 "finalize", Frame.complete]

/-- The percent values carried by the progress frames of an outbound
frame sequence, in emission order. -/
def progressPercents (fs : List Frame) : List ℚ :=
  fs.filterMap fun f =>
    match f with
    | Frame.progress p _ => some p
    | _ => none

-- ---------------------------------------------------------------------
-- Concrete instances used by counterexamples and witnesses
-- ---------------------------------------------------------------------

/-- A `StreamEnv` with `PROGRESS_TAIL_MAX="0.999"` — a legal
configuration that survives the clamp unchanged. -/
def envTail999 : StreamEnv := { PROGRESS_TAIL_MAX := some (999/1000) }

/-- A JSON body carrying all three image sources at once. -/
def inputC4 : AnalyzeInput :=
  { image_url := some "u", image_base64 := some "b", images := some ["a"] }

/-- A JSON body with a prompt, one image URL and `detail: "high"`. -/
def inputC6 : AnalyzeInput :=
  { prompt := some "p", image_url := some "u", detail := some "high" }

/-- A multipart form with a prompt field and an uploaded `image/bmp`
file (declared type outside the raster-image whitelist). -/
def formC7 : List (String × FormValue) :=
  [("prompt", FormValue.str "hi"), ("file", FormValue.file "image/bmp" 100 "QUJD")]

-- ---------------------------------------------------------------------
-- Helper lemmas
-- ---------------------------------------------------------------------

lemma pctOf_mono {a b : ℚ} (h : a ≤ b) : pctOf a ≤ pctOf b := by
  unfold pctOf jsRound
  have hf : (⌊a * 1000 + 1/2⌋ : ℤ) ≤ ⌊b * 1000 + 1/2⌋ := Int.floor_le_floor (by linarith)
  have : ((⌊a * 1000 + 1/2⌋ : ℤ) : ℚ) ≤ ((⌊b * 1000 + 1/2⌋ : ℤ) : ℚ) := by exact_mod_cast hf
  linarith

lemma pctOf_headers : pctOf (35/100) = 35 := by norm_num [pctOf, jsRound]

lemma pctOf_99 : pctOf (99/100) = 99 := by norm_num [pctOf, jsRound]

lemma softStep_progress_le (cfg : SessCfg) (started : ℚ) (st : MidState) (now : ℚ) :
    st.progress ≤ (softStep cfg started st now).1.progress := by
  unfold softStep
  dsimp only
  split_ifs with h1 h2 <;> dsimp only <;> first | linarith [h1.1] | exact le_refl _

lemma softStep_progress_ub (cfg : SessCfg) (started : ℚ) (st : MidState) (now : ℚ) :
    (softStep cfg started st now).1.progress ≤ max st.progress cfg.TAIL_MAX := by
  unfold softStep
  dsimp only
  split_ifs with h1 h2 <;> dsimp only
  · exact le_max_of_le_right (min_le_left _ _)
  · exact le_max_of_le_right (min_le_left _ _)
  · exact le_max_left _ _

lemma softStep_frames (cfg : SessCfg) (started : ℚ) (st : MidState) (now : ℚ) :
    (softStep cfg started st now).2 = [] ∨
      ((softStep cfg started st now).2
          = [Frame.progress (pctOf (softStep cfg started st now).1.progress) "upstream_wait"] ∧
        st.progress < (softStep cfg started st now).1.progress ∧
        (softStep cfg started st now).1.progress ≤ cfg.TAIL_MAX) := by
  unfold softStep
  dsimp only
  split_ifs with h1 h2 <;> dsimp only
  · exact Or.inr ⟨rfl, by linarith [h1.1], min_le_left _ _⟩
  · exact Or.inl rfl
  · exact Or.inl rfl

lemma midStep_progress_le (cfg : SessCfg) (started : ℚ) (st : MidState) (e : MidEvent) :
    st.progress ≤ (midStep cfg started st e).1.progress := by
  cases e with
  | heartbeatTick => exact le_refl _
  | softTick now => exact softStep_progress_le cfg started st now
  | chunk bytes => exact le_refl _

lemma midStep_progress_ub (cfg : SessCfg) (started : ℚ) (st : MidState) (e : MidEvent) :
    (midStep cfg started st e).1.progress ≤ max st.progress cfg.TAIL_MAX := by
  cases e with
  | heartbeatTick => exact le_max_left _ _
  | softTick now => exact softStep_progress_ub cfg started st now
  | chunk bytes => exact le_max_left _ _

lemma chain'_head_weaken {l : List ℚ} {a b : ℚ}
    (h : List.Chain' (· ≤ ·) (b :: l)) (hab : a ≤ b) : List.Chain' (· ≤ ·) (a :: l) := by
  cases l with
  | nil => simp
  | cons c l => rw [List.chain'_cons] at h ⊢; exact ⟨le_trans hab h.1, h.2⟩

/-- Main invariant of the relay-phase fold: the tracked fraction is
non-decreasing and bounded by `max` of its start value and the tail
ceiling; the emitted progress percents form a non-decreasing chain seeded
by the entry percent, each bounded by the final fraction's percent; and
every emitted frame is a heartbeat, a relayed chunk, or an
`upstream_wait` progress frame whose underlying fraction respects the
tail ceiling. -/
lemma midRun_spec (cfg : SessCfg) (started : ℚ) :
    ∀ (events : List MidEvent) (st : MidState),
      st.progress ≤ (midRun cfg started events st).1.progress ∧
      (midRun cfg started events st).1.progress ≤ max st.progress cfg.TAIL_MAX ∧
      List.Chain' (· ≤ ·)
        (pctOf st.progress :: progressPercents (midRun cfg started events st).2) ∧
      (∀ p ∈ progressPercents (midRun cfg started events st).2,
        p ≤ pctOf (midRun cfg started events st).1.progress) ∧
      (∀ f ∈ (midRun cfg started events st).2,
        f = Frame.heartbeat ∨ (∃ b, f = Frame.upstreamBytes b) ∨
        ∃ t, f = Frame.progress (pctOf t) "upstream_wait" ∧ t ≤ cfg.TAIL_MAX)
  | [], st => by
    refine ⟨le_refl _, le_max_left _ _, ?_, ?_, ?_⟩ <;>
      simp [midRun, progressPercents]
  | e :: es, st => by
    have ih := midRun_spec cfg started es (midStep cfg started st e).1
    obtain ⟨ih1, ih2, ih3, ih4, ih5⟩ := ih
    have hstep_le := midStep_progress_le cfg started st e
    have hstep_ub := midStep_progress_ub cfg started st e
    have hrun :
        midRun cfg started (e :: es) st
          = ((midRun cfg started es (midStep cfg started st e).1).1,
             (midStep cfg started st e).2
               ++ (midRun cfg started es (midStep cfg started st e).1).2) := rfl
    rw [hrun]
    dsimp only
    refine ⟨le_trans hstep_le ih1, ?_, ?_, ?_, ?_⟩
    · exact le_trans ih2 (max_le (le_trans hstep_ub (le_refl _)) (le_max_right _ _))
    · cases e with
      | heartbeatTick =>
        simpa [midStep, progressPercents] using ih3
      | chunk bytes =>
        simpa [midStep, progressPercents] using ih3
      | softTick now =>
        rcases softStep_frames cfg started st now with hnil | ⟨hone, hlt, _⟩
        · have : (midStep cfg started st (MidEvent.softTick now)).2 = [] := hnil
          rw [this]
          simp only [List.nil_append]
          exact chain'_head_weaken ih3 (pctOf_mono hstep_le)
        · have : (midStep cfg started st (MidEvent.softTick now)).2
              = [Frame.progress
                  (pctOf (midStep cfg started st (MidEvent.softTick now)).1.progress)
                  "upstream_wait"] := hone
          rw [this]
          simp only [progressPercents, List.filterMap_append, List.filterMap_cons,
            List.filterMap_nil, List.singleton_append]
          rw [List.chain'_cons]
          constructor
          · exact pctOf_mono (le_of_lt hlt)
          · exact ih3
    · intro p hp
      simp only [progressPercents, List.filterMap_append, List.mem_append] at hp
      rcases hp with hp | hp
      · cases e with
        | heartbeatTick => simp [midStep, progressPercents] at hp
        | chunk bytes => simp [midStep, progressPercents] at hp
        | softTick now =>
          rcases softStep_frames cfg started st now with hnil | ⟨hone, _, _⟩
          · rw [show (midStep cfg started st (MidEvent.softTick now)).2 = [] from hnil] at hp
            simp [progressPercents] at hp
          · rw [show (midStep cfg started st (MidEvent.softTick now)).2
                = [Frame.progress
                    (pctOf (midStep cfg started st (MidEvent.softTick now)).1.progress)
                    "upstream_wait"] from hone] at hp
            simp only [progressPercents, List.filterMap_cons, List.filterMap_nil] at hp
            simp at hp
            subst hp
            exact pctOf_mono ih1
      · exact ih4 p hp
    · intro f hf
      rcases List.mem_append.mp hf with hf | hf
      · cases e with
        | heartbeatTick =>
          simp only [midStep] at hf
          simp at hf
          subst hf
          exact Or.inl rfl
        | chunk bytes =>
          simp only [midStep] at hf
          simp at hf
          subst hf
          exact Or.inr (Or.inl ⟨bytes, rfl⟩)
        | softTick now =>
          rcases softStep_frames cfg started st now with hnil | ⟨hone, _, hub⟩
          · rw [show (midStep cfg started st (MidEvent.softTick now)).2 = [] from hnil] at hf
            simp at hf
          · rw [show (midStep cfg started st (MidEvent.softTick now)).2
                = [Frame.progress
                    (pctOf (midStep cfg started st (MidEvent.softTick now)).1.progress)
                    "upstream_wait"] from hone] at hf
            simp at hf
            subst hf
            exact Or.inr (Or.inr
              ⟨(midStep cfg started st (MidEvent.softTick now)).1.progress, rfl, hub⟩)
      · exact ih5 f hf

lemma chain'_snoc_ub {l : List ℚ} {a c : ℚ}
    (h : List.Chain' (· ≤ ·) (a :: l)) (hub : ∀ p ∈ l, p ≤ c) (hac : a ≤ c) :
    List.Chain' (· ≤ ·) (a :: (l ++ [c])) := by
  rw [show a :: (l ++ [c]) = (a :: l) ++ [c] from rfl, List.chain'_append]
  refine ⟨h, List.chain'_singleton c, ?_⟩
  intro x hx y hy
  simp only [List.head?_cons, Option.mem_def, Option.some.injEq] at hy
  subst hy
  obtain ⟨hne, hx'⟩ := List.mem_getLast?_eq_getLast hx
  have hxmem : x ∈ a :: l := hx' ▸ List.getLast_mem hne
  rcases List.mem_cons.mp hxmem with rfl | hxl
  · exact hac
  · exact hub x hxl

lemma midPercents_chain_with_99 (cfg : SessCfg) (started : ℚ) (mid : List MidEvent)
    (h : cfg.TAIL_MAX ≤ 99/100) :
    List.Chain' (· ≤ ·)
      ((5:ℚ) :: 10 :: 35 ::
        (progressPercents
          (midRun cfg started mid { progress := 35/100, lastEmit := 0 }).2 ++ [99])) := by
  obtain ⟨h1, h2, h3, h4, _⟩ := midRun_spec cfg started mid { progress := 35/100, lastEmit := 0 }
  rw [List.chain'_cons]
  refine ⟨by norm_num, ?_⟩
  rw [List.chain'_cons]
  refine ⟨by norm_num, ?_⟩
  have hch : List.Chain' (· ≤ ·)
      ((35:ℚ) :: progressPercents
        (midRun cfg started mid { progress := 35/100, lastEmit := 0 }).2) := by
    simpa [pctOf_headers] using h3
  refine chain'_snoc_ub hch ?_ (by norm_num)
  intro p hp
  have hple := h4 p hp
  have hfin : (midRun cfg started mid { progress := 35/100, lastEmit := 0 }).1.progress
      ≤ 99/100 :=
    le_trans h2 (max_le (by norm_num) h)
  calc p ≤ pctOf (midRun cfg started mid { progress := 35/100, lastEmit := 0 }).1.progress :=
        hple
    _ ≤ pctOf (99/100) := pctOf_mono hfin
    _ = 99 := pctOf_99

-- ---------------------------------------------------------------------
-- Claim theorems
-- ---------------------------------------------------------------------

/-- C1 (counterexample): the claim "no completion frame is ever emitted
after an error frame" is false on the code.  In the mid-relay read-fault
case the synthesizer emits the `UPSTREAM_READ` error frame (index 3 in
this concrete session) and then still emits the `finalize` progress frame
and a `complete` frame (index 5) — a completion frame after an error
frame. -/
theorem claim_C1_counterexample :
    (sessionFrames defaultSessCfg 0 ⟨200, BodyOutcome.readFault "boom"⟩ []).get? 3
        = some (Frame.error "UPSTREAM_READ") ∧
    (sessionFrames defaultSessCfg 0 ⟨200, BodyOutcome.readFault "boom"⟩ []).get? 5
        = some Frame.complete := by
  have h : sessionFrames defaultSessCfg 0 ⟨200, BodyOutcome.readFault "boom"⟩ [] =
      [Frame.progress 5 "queued", Frame.progress 10 "selecting_provider",
       Frame.progress 35 "headers_received", Frame.error "UPSTREAM_READ",
       Frame.progress 99 "finalize", Frame.complete] := by
    norm_num [sessionFrames, preFrames, midRun, pctOf, jsRound]
  rw [h]
  exact ⟨rfl, rfl⟩

/-- C1 (corrected, amended claim): in the no-upstream-body case the
error frame is the last frame of the session and no `complete` frame is
ever emitted; in the mid-relay read-fault case, however, the session
always ends with the error frame followed by the `finalize` progress
frame and a `complete` frame — the code emits the completion frame even
after a read fault. -/
theorem claim_C1_amended (cfg : SessCfg) (started : ℚ) (resp : UpstreamResp)
    (mid : List MidEvent) :
    (resp.outcome = BodyOutcome.noBody →
      (sessionFrames cfg started resp mid).getLast?
          = some (Frame.error "NO_UPSTREAM_BODY") ∧
      Frame.complete ∉ sessionFrames cfg started resp mid) ∧
    (∀ msg, resp.outcome = BodyOutcome.readFault msg →
      List.IsSuffix
        [Frame.error "UPSTREAM_READ", Frame.progress 99 "finalize", Frame.complete]
        (sessionFrames cfg started resp mid)) := by
  obtain ⟨status, outcome⟩ := resp
  constructor
  · intro h
    simp only at h
    subst h
    constructor
    · simp [sessionFrames, preFrames]
    · simp [sessionFrames, preFrames]
  · intro msg h
    simp only at h
    subst h
    refine ⟨preFrames ++ (midRun cfg started mid { progress := 35/100, lastEmit := 0 }).2, ?_⟩
    simp [sessionFrames, List.append_assoc]

/-- C1 (witness): the amended claim applied to a concrete no-body
session. -/
theorem claim_C1_amended_witness :
    (sessionFrames defaultSessCfg 0 ⟨200, BodyOutcome.noBody⟩ []).getLast?
        = some (Frame.error "NO_UPSTREAM_BODY") ∧
    Frame.complete ∉ sessionFrames defaultSessCfg 0 ⟨200, BodyOutcome.noBody⟩ [] :=
  (claim_C1_amended defaultSessCfg 0 ⟨200, BodyOutcome.noBody⟩ []).1 rfl

/-- C2 (confirmed): for every timing configuration, upstream response and
relay schedule — in particular no matter how fast or slow the upstream
responds — the first two frames of the outbound stream are exactly the
fixed `queued` (percent 5) and `selecting_provider` (percent 10) progress
frames, and neither of those two leading positions holds relayed upstream
bytes. -/
theorem claim_C2_first_frames (cfg : SessCfg) (started : ℚ) (resp : UpstreamResp)
    (mid : List MidEvent) :
    (sessionFrames cfg started resp mid).take 2
        = [Frame.progress 5 "queued", Frame.progress 10 "selecting_provider"] ∧
    ((sessionFrames cfg started resp mid).take 2).all
        (fun f => match f with | Frame.upstreamBytes _ => false | _ => true) = true := by
  obtain ⟨status, outcome⟩ := resp
  constructor
  · cases outcome <;> simp [sessionFrames, preFrames]
  · cases outcome <;> simp [sessionFrames, preFrames]

/-- C3 (counterexample): with the legal configuration
`PROGRESS_TAIL_MAX="0.999"` (inside the clamp range), a session whose
soft-progress timer fires late enough emits an `upstream_wait` progress
frame at 99.9 percent, followed by the fixed `finalize` frame at
99 percent — a progress frame carrying a strictly lower percent than the
previously emitted one, refuting unconditional monotonicity. -/
theorem claim_C3_counterexample :
    progressPercents (sessionFrames (sessCfgOf envTail999) 0
        ⟨200, BodyOutcome.endsCleanly⟩ [MidEvent.softTick 3500])
      = [5, 10, 35, 999/10, 99] ∧
    (99:ℚ) < 999/10 := by
  constructor
  · norm_num [sessionFrames, preFrames, midRun, midStep, softStep, sessCfgOf, tailMaxOf,
      heartbeatMsOf, envTail999, parseNumber, pctOf, jsRound, progressPercents,
      List.filterMap_cons]
  · norm_num

/-- C3 (corrected, amended claim): within one stream session,
(a) whenever the clamped tail ceiling is at most the default `0.99`, the
percent values of the emitted progress frames are monotonically
non-decreasing, and (b) for every configuration, each soft-progress
(`upstream_wait`) frame carries a percent of at most the tail ceiling's
percent — the estimator never exceeds the ceiling before the upstream
body ends.  (Unconditional monotonicity fails for a tail ceiling above
0.99, where the final `finalize` frame at 99 can undercut the last
soft-progress frame: see the counterexample.) -/
theorem claim_C3_amended (cfg : SessCfg) (started : ℚ) (resp : UpstreamResp)
    (mid : List MidEvent) :
    (cfg.TAIL_MAX ≤ 99/100 →
      List.Chain' (· ≤ ·) (progressPercents (sessionFrames cfg started resp mid))) ∧
    (∀ p, Frame.progress p "upstream_wait" ∈ sessionFrames cfg started resp mid →
      p ≤ pctOf cfg.TAIL_MAX) := by
  obtain ⟨status, outcome⟩ := resp
  constructor
  · intro h
    cases outcome with
    | noBody =>
      simp [sessionFrames, preFrames, progressPercents, List.filterMap_cons, pctOf_headers,
        List.chain'_cons]
      norm_num
    | endsCleanly =>
      have := midPercents_chain_with_99 cfg started mid h
      simpa [sessionFrames, preFrames, progressPercents, List.filterMap_append,
        List.filterMap_cons, pctOf_headers] using this
    | readFault msg =>
      have := midPercents_chain_with_99 cfg started mid h
      simpa [sessionFrames, preFrames, progressPercents, List.filterMap_append,
        List.filterMap_cons, pctOf_headers] using this
  · intro p hp
    have hmid : ∀ f ∈ (midRun cfg started mid { progress := 35/100, lastEmit := 0 }).2,
        f = Frame.heartbeat ∨ (∃ b, f = Frame.upstreamBytes b) ∨
          ∃ t, f = Frame.progress (pctOf t) "upstream_wait" ∧ t ≤ cfg.TAIL_MAX :=
      (midRun_spec cfg started mid { progress := 35/100, lastEmit := 0 }).2.2.2.2
    have hfrom_mid : ∀ (hmem : Frame.progress p "upstream_wait"
          ∈ (midRun cfg started mid { progress := 35/100, lastEmit := 0 }).2),
        p ≤ pctOf cfg.TAIL_MAX := by
      intro hmem
      rcases hmid _ hmem with h | ⟨b, h⟩ | ⟨t, h, hle⟩
      · exact absurd h (by simp)
      · exact absurd h (by simp)
      · obtain ⟨hpe, -⟩ := Frame.progress.inj h
        exact hpe ▸ pctOf_mono hle
    cases outcome with
    | noBody =>
      simp only [sessionFrames, preFrames] at hp
      simp at hp
    | endsCleanly =>
      simp only [sessionFrames, preFrames, List.append_assoc, List.mem_append,
        List.mem_cons, List.mem_singleton, List.not_mem_nil] at hp
      rcases hp with h | h | h | (h | h) <;>
        first
          | (exact absurd h (by simp))
          | (exact hfrom_mid (by simpa using h))
    | readFault msg =>
      simp only [sessionFrames, preFrames, List.append_assoc, List.mem_append,
        List.mem_cons, List.mem_singleton, List.not_mem_nil] at hp
      rcases hp with h | h | h | (h | h) <;>
        first
          | (exact absurd h (by simp))
          | (exact hfrom_mid (by simpa using h))

/-- C3 (witness): the amended claim applied to the default configuration
and a session with one emitting soft tick. -/
theorem claim_C3_amended_witness :
    List.Chain' (· ≤ ·)
      (progressPercents (sessionFrames defaultSessCfg 0
        ⟨200, BodyOutcome.endsCleanly⟩ [MidEvent.softTick 1500])) ∧
    (429:ℚ)/10 ≤ pctOf defaultSessCfg.TAIL_MAX := by
  constructor
  · exact (claim_C3_amended defaultSessCfg 0 ⟨200, BodyOutcome.endsCleanly⟩
      [MidEvent.softTick 1500]).1
      (by norm_num [defaultSessCfg, sessCfgOf, tailMaxOf, parseNumber])
  · refine (claim_C3_amended defaultSessCfg 0 ⟨200, BodyOutcome.endsCleanly⟩
      [MidEvent.softTick 1500]).2 (429/10) ?_
    have h : sessionFrames defaultSessCfg 0 ⟨200, BodyOutcome.endsCleanly⟩
        [MidEvent.softTick 1500] =
        [Frame.progress 5 "queued", Frame.progress 10 "selecting_provider",
         Frame.progress 35 "headers_received", Frame.progress (429/10) "upstream_wait",
         Frame.progress 99 "finalize", Frame.complete] := by
      norm_num [sessionFrames, preFrames, midRun, midStep, softStep, defaultSessCfg,
        sessCfgOf, tailMaxOf, heartbeatMsOf, parseNumber, pctOf, jsRound]
    rw [h]
    simp

/-- C4 (counterexample): the claim that the canonical images sequence is
"images-list entries, then image_url, then image_base64" is false on the
code.  On a request carrying all three sources, `buildVisionPayload`
produces the URL first, the wrapped base64 second and the list entries
last — the reverse grouping of the claimed order — so the source-derived
sequence and the spec-claimed sequence differ. -/
theorem claim_C4_counterexample :
    imagesOf inputC4 = ["u", "data:image/png;base64,b", "a"] ∧
    specClaimedImagesOrder inputC4 = ["a", "u", "data:image/png;base64,b"] ∧
    (imagesOf inputC4 == specClaimedImagesOrder inputC4) = false := by
  refine ⟨rfl, rfl, ?_⟩
  rfl

/-- C4 (corrected, amended claim): the image URLs of the upstream
payload's content array are, in this fixed order, the truthy singular
image-URL field, then the truthy singular inline-base64 field wrapped
into a `data:image/png;base64,` URI, then all entries of the explicit
image-list field. -/
lemma filterMap_imageUrls_map (l : List String) :
    ((l.map (fun url => ContentPart.imageUrl url none)).filterMap fun c =>
        match c with
        | ContentPart.imageUrl u _ => some u
        | ContentPart.text _ => none) = l := by
  induction l with
  | nil => rfl
  | cons a t ih => simpa using ih

theorem claim_C4_amended (input : AnalyzeInput) (p : Provider) (dm : Option String) :
    ((buildVisionPayload input p dm).content.filterMap fun c =>
        match c with
        | ContentPart.imageUrl u _ => some u
        | ContentPart.text _ => none)
      = (if strTruthy input.image_url then [input.image_url.getD ""] else [])
        ++ (if strTruthy input.image_base64 then
              ["data:image/png;base64," ++ input.image_base64.getD ""] else [])
        ++ input.images.getD [] := by
  have h : (buildVisionPayload input p dm).content
      = (if strTruthy input.prompt then [ContentPart.text (input.prompt.getD "")] else [])
        ++ (imagesOf input).map (fun url => ContentPart.imageUrl url none) := rfl
  rw [h, List.filterMap_append, filterMap_imageUrls_map]
  cases hb : strTruthy input.prompt
  · simp [imagesOf]
  · simp [imagesOf]

/-- C5 (counterexample): the claim that for a request whose path does not
end in `/stream` and whose body sets `stream: false` the query parameter
cannot make the response a stream is false on the code — with
`?stream=1` the resolved flag is `true` anyway, because the source
computes a plain disjunction, not a precedence chain. -/
theorem claim_C5_counterexample :
    wantsStream false (some false) (some "1") = true := rfl

/-- C5 (corrected, amended claim): the resolved stream flag is the
inclusive disjunction of the three signals — path suffix, body field
equal to `true`, query flag parsing to `true` — so each signal alone
forces streaming and no signal can veto another; there is no
path > body > query precedence. -/
theorem claim_C5_amended (p : Bool) (b : Option Bool) (q : Option String) :
    (wantsStream p b q = true ↔
      (p = true ∨ b = some true ∨ getQueryFlag q = some true)) ∧
    wantsStream true b q = true ∧
    wantsStream p (some true) q = true := by
  refine ⟨?_, ?_, ?_⟩
  · simp [wantsStream, Bool.or_eq_true, beq_iff_eq, or_assoc]
  · simp [wantsStream]
  · simp [wantsStream]

/-- C6 (code bug): on a request with `detail: "high"`, one prompt and one
image URL, the current `buildVisionPayload` emits the image part with no
`detail` key at all, although the repository's own documentation (and the
spec) say each image part carries the detail level, and the legacy
adapter `makeMessages` does attach it. -/
theorem claim_C6_detail_divergence :
    (buildVisionPayload inputC6 Provider.bigmodel none).content
        = [ContentPart.text "p", ContentPart.imageUrl "u" none] ∧
    makeMessages "p" "u" (some "high")
        = [ContentPart.text "p", ContentPart.imageUrl "u" (some "high")] :=
  ⟨rfl, rfl⟩

/-- C7 (code bug): a multipart request whose uploaded file has declared
type `image/bmp` is not rejected by the current `parseAnalyzePayload` —
the file entry is silently dropped and parsing succeeds with no image,
after which the upstream call is issued; only the legacy `fileToDataUrl`
implements the claimed behavior, rejecting `image/bmp` and converting a
whitelisted type into a data URI built from the declared content type. -/
theorem claim_C7_upload_divergence :
    parseMultipart (fun _ => none) formC7 = { prompt := some "hi" } ∧
    fileToDataUrl "image/bmp" 100 "QUJD"
        = Except.error "Unsupported file type (jpeg/png/webp/gif only)." ∧
    fileToDataUrl "image/png" 100 "QUJD" = Except.ok "data:image/png;base64,QUJD" :=
  ⟨rfl, rfl, rfl⟩

/-- C8 (confirmed): for Provider A (BigModel), setting the thinking field
to the string "enabled" yields an upstream payload whose `thinking` field
is exactly `{type: "enabled"}` (modelled as `some "enabled"`), and
leaving the field absent yields a payload with no `thinking` key at all
(modelled as `none`) — whatever the rest of the request and the
configured default model are. -/
theorem claim_C8_thinking_roundtrip (input : AnalyzeInput) (dm : Option String) :
    (buildVisionPayload { input with thinking := some (ThinkingField.str "enabled") }
        Provider.bigmodel dm).thinking = some "enabled" ∧
    (buildVisionPayload { input with thinking := none }
        Provider.bigmodel dm).thinking = none := by
  constructor <;> simp [buildVisionPayload]

/-- C9 (confirmed): the non-stream responder's outbound status always
equals the upstream status — in particular a body that fails to parse as
JSON yields the structured error body with the original status preserved
(never a fabricated 200), and a parsed body (for example of an upstream
429) is forwarded as-is with its status; exactly one upstream response is
consumed, with no retry. -/
theorem claim_C9_status_passthrough {α : Type} (status : Nat) (parsed : Option α) :
    (respondNonStream status parsed).1 = status ∧
    (∀ j, parsed = some j →
      (respondNonStream status parsed).2 = OutBody.upstreamJson j) ∧
    (parsed = none → (respondNonStream status parsed).2 = OutBody.badUpstreamJson) := by
  refine ⟨rfl, ?_, ?_⟩
  · intro j h
    subst h
    rfl
  · intro h
    subst h
    rfl

/-- C9 (witness): the passthrough applied to a concrete upstream 429 with
a parsed JSON body. -/
theorem claim_C9_witness :
    (respondNonStream 429 (some 7)).1 = 429 ∧
    (respondNonStream 429 (some 7)).2 = OutBody.upstreamJson 7 :=
  ⟨(claim_C9_status_passthrough 429 (some 7)).1,
   (claim_C9_status_passthrough 429 (some 7)).2.1 7 rfl⟩

/-- C10 (confirmed): for every environment, the heartbeat period actually
used is at least 3000 ms and the tail ceiling lies in [0.9, 0.999]; with
the variables unset (or non-numeric) the fallbacks 7000 ms and 0.99 are
used — no configuration yields a sub-3-second heartbeat or a tail
ceiling of 1. -/
theorem claim_C10_timing_clamps (e : StreamEnv) :
    3000 ≤ (sessCfgOf e).HEARTBEAT_MS ∧
    (9:ℚ)/10 ≤ (sessCfgOf e).TAIL_MAX ∧
    (sessCfgOf e).TAIL_MAX ≤ 999/1000 ∧
    (sessCfgOf {}).HEARTBEAT_MS = 7000 ∧
    (sessCfgOf {}).TAIL_MAX = 99/100 := by
  refine ⟨?_, ?_, ?_, ?_, ?_⟩
  · show 3000 ≤ heartbeatMsOf e.STREAM_HEARTBEAT_MS
    exact le_max_left _ _
  · show (9:ℚ)/10 ≤ tailMaxOf e.PROGRESS_TAIL_MAX
    exact le_max_left _ _
  · show tailMaxOf e.PROGRESS_TAIL_MAX ≤ 999/1000
    exact max_le (by norm_num) (min_le_left _ _)
  · norm_num [sessCfgOf, heartbeatMsOf, parseNumber]
  · norm_num [sessCfgOf, tailMaxOf, parseNumber]

end VLMM
